import Mathlib

/- Verification of the rust_kanban application-state core against its
   specification.  Shallow embedding of the provided sources:
   src/inputs/mouse.rs, src/io/handler.rs and src/main.rs.
   Items from crate::app and crate::io::data_handler are not part of the
   provided sources; where a claim needs them they are modelled from the
   spec and marked as such in their doc comments. -/

set_option maxHeartbeats 1000000

/- ===== Input normalizer (src/inputs/mouse.rs) ===== -/

/-- Mouse buttons, from crossterm event::MouseButton as matched in mouse.rs. -/
inductive MouseButton
  | Left
  | Right
  | Middle
  deriving DecidableEq

/-- Raw mouse event kinds, from crossterm event::MouseEventKind as matched in
mouse.rs (Up and Drag fall into the catch-all arm of the source match). -/
inductive MouseEventKind
  | Down (b : MouseButton)
  | Up (b : MouseButton)
  | Drag (b : MouseButton)
  | Moved
  | ScrollDown
  | ScrollUp
  deriving DecidableEq

/-- Key modifier flags, from crossterm event::KeyModifiers (bitflags with
SHIFT, CONTROL and ALT bits); a value is the set of bits that are on. -/
structure KeyModifiers where
  shift : Bool
  control : Bool
  alt : Bool
  deriving DecidableEq

/-- The KeyModifiers::CONTROL constant: exactly the control bit set. -/
def KeyModifiers.CONTROL : KeyModifiers := ⟨false, true, false⟩

/-- The KeyModifiers::NONE constant: no modifier bit set. -/
def KeyModifiers.NONE : KeyModifiers := ⟨false, false, false⟩

/-- Raw mouse event, from crossterm event::MouseEvent (kind, column, row,
modifiers).  The u16 coordinates are modelled as Nat; the normalizer only
copies them, so no overflow arithmetic arises. -/
structure MouseEvent where
  kind : MouseEventKind
  column : Nat
  row : Nat
  modifiers : KeyModifiers
  deriving DecidableEq

/-- Semantic mouse events: the Mouse enum of mouse.rs. -/
inductive Mouse
  | LeftPress
  | RightPress
  | MiddlePress
  | ScrollUp
  | ScrollDown
  | ScrollLeft
  | ScrollRight
  | Move (x : Nat) (y : Nat)
  | Unknown
  deriving DecidableEq

/-- The input normalizer: From(event::MouseEvent) for Mouse in mouse.rs, with
the source's match arms in the source's order.  A Rust match against the
constant pattern KeyModifiers::CONTROL succeeds only when the modifier value
equals CONTROL exactly, which the fourth and fifth arms mirror here. -/
def Mouse.fromEvent : MouseEvent → Mouse
  | ⟨MouseEventKind.Down MouseButton.Left, _, _, _⟩ => Mouse.LeftPress
  | ⟨MouseEventKind.Down MouseButton.Right, _, _, _⟩ => Mouse.RightPress
  | ⟨MouseEventKind.Down MouseButton.Middle, _, _, _⟩ => Mouse.MiddlePress
  | ⟨MouseEventKind.ScrollDown, _, _, ⟨false, true, false⟩⟩ => Mouse.ScrollLeft
  | ⟨MouseEventKind.ScrollUp, _, _, ⟨false, true, false⟩⟩ => Mouse.ScrollRight
  | ⟨MouseEventKind.ScrollUp, _, _, _⟩ => Mouse.ScrollUp
  | ⟨MouseEventKind.ScrollDown, _, _, _⟩ => Mouse.ScrollDown
  | ⟨MouseEventKind.Moved, column, row, _⟩ => Mouse.Move column row
  | _ => Mouse.Unknown

/-- The Display implementation for Mouse in mouse.rs: the exact strings of the
source's write! calls. -/
def Mouse.display : Mouse → String
  | Mouse.LeftPress => "<Mouse::Left>"
  | Mouse.RightPress => "<Mouse::Right>"
  | Mouse.MiddlePress => "<Mouse::Middle>"
  | Mouse.ScrollUp => "<Mouse::ScrollUp>"
  | Mouse.ScrollDown => "<Mouse::ScrollDown>"
  | Mouse.ScrollLeft => "<Mouse::Ctrl + ScrollUp>"
  | Mouse.ScrollRight => "<Mouse::Ctrl + ScrollDown>"
  | Mouse.Move x y => "<Mouse::Move(" ++ toString x ++ ", " ++ toString y ++ ")>"
  | Mouse.Unknown => "<Mouse::Unknown>"

/- ===== Version strings (src/io/handler.rs, prepare_boards) ===== -/

/-- Lexicographic strict comparison of character lists, modelling Rust's Ord
for str (byte-wise lexicographic comparison of the UTF-8 encodings; UTF-8 byte
order agrees with code-point order, which is the Char order used here). -/
def ltb : List Char → List Char → Bool
  | [], [] => false
  | [], _ :: _ => true
  | _ :: _, [] => false
  | a :: as, b :: bs => if a < b then true else if b < a then false else ltb as bs

/-- Rust's non-strict string order, a est b iff not b lt a, stated on the
underlying character lists. -/
def str_le (a b : String) : Prop := ltb b.data a.data = false

/-- One fold step of Rust Iterator::max over Strings: Ord::max, which keeps
the second (later) element on ties. -/
def max_step (acc x : String) : String := if ltb x.data acc.data then acc else x

/-- Rust local_save_files.iter().max(): the lexicographic maximum of the
list, None when the list is empty. -/
def iter_max (l : List String) : Option String :=
  match l with
  | [] => none
  | x :: xs => some (List.foldl max_step x xs)

/-- The latest-version computation of prepare_boards (handler.rs lines
137-138): maximum save-file name with the fall-back version string "1" when
there are no save files. -/
def latest_version (files : List String) : String :=
  (iter_max files).getD "1"

/-- Rust str::split with a char pattern, on character lists: n occurrences of
the separator yield n+1 pieces, empty pieces included. -/
def splitOnChar (sep : Char) : List Char → List (List Char)
  | [] => [[]]
  | c :: cs =>
    if c = sep then [] :: splitOnChar sep cs
    else
      match splitOnChar sep cs with
      | [] => [[c]]
      | g :: gs => (c :: g) :: gs

/-- Decimal digit accumulator used by the u32 parser. -/
def parseDigitsAux : List Char → Nat → Option Nat
  | [], acc => some acc
  | c :: cs, acc =>
    if c.isDigit then parseDigitsAux cs (acc * 10 + (c.toNat - 48))
    else none

/-- Rust str::parse::<u32>: an optional leading plus sign followed by one or
more decimal digits, whose value must fit in 32 bits; anything else is a parse
error (None). -/
def parseU32 (cs : List Char) : Option Nat :=
  let ds := match cs with
    | '+' :: rest => rest
    | other => other
  match ds with
  | [] => none
  | _ =>
    match parseDigitsAux ds 0 with
    | some n => if n < 4294967296 then some n else none
    | none => none

/-- The version-number computation of prepare_boards (handler.rs lines
140-144): split the version string on the character v, take the last piece
(unwrap_or "1"), parse it as u32 (unwrap_or 1). -/
def parse_version_number (s : String) : Nat :=
  (parseU32 ((splitOnChar 'v' s.data).getLast?.getD ['1'])).getD 1

/-- The whole version selection of prepare_boards: numeric version of the
lexicographically greatest save-file name. -/
def latest_version_number (files : List String) : Nat :=
  parse_version_number (latest_version files)

/- ===== Order lemmas for the lexicographic comparator ===== -/

theorem ltb_irrefl : ∀ l : List Char, ltb l l = false := by
  intro l
  induction l with
  | nil => rfl
  | cons a as ih => simp [ltb, lt_irrefl, ih]

theorem ltb_trans :
    ∀ l₁ l₂ l₃ : List Char, ltb l₁ l₂ = true → ltb l₂ l₃ = true → ltb l₁ l₃ = true := by
  intro l₁
  induction l₁ with
  | nil =>
    intro l₂ l₃ h1 h2
    cases l₂ with
    | nil => simp [ltb] at h1
    | cons b bs =>
      cases l₃ with
      | nil => simp [ltb] at h2
      | cons c cs => simp [ltb]
  | cons a as ih =>
    intro l₂ l₃ h1 h2
    cases l₂ with
    | nil => simp [ltb] at h1
    | cons b bs =>
      cases l₃ with
      | nil => simp [ltb] at h2
      | cons c cs =>
        simp only [ltb] at h1 h2 ⊢
        by_cases hab : a < b
        · by_cases hbc : b < c
          · simp [lt_trans hab hbc]
          · by_cases hcb : c < b
            · simp [hbc, hcb] at h2
            · have hbceq : b = c := le_antisymm (le_of_not_lt hcb) (le_of_not_lt hbc)
              subst hbceq
              simp [hab]
        · by_cases hba : b < a
          · simp [hab, hba] at h1
          · have habeq : a = b := le_antisymm (le_of_not_lt hba) (le_of_not_lt hab)
            subst habeq
            simp [lt_irrefl] at h1
            by_cases hac : a < c
            · simp [hac]
            · by_cases hca : c < a
              · simp [hac, hca] at h2
              · simp [hac, hca] at h2 ⊢
                exact ih bs cs h1 h2

theorem ltb_eq_of_not :
    ∀ l₁ l₂ : List Char, ltb l₁ l₂ = false → ltb l₂ l₁ = false → l₁ = l₂ := by
  intro l₁
  induction l₁ with
  | nil =>
    intro l₂ h1 h2
    cases l₂ with
    | nil => rfl
    | cons b bs => simp [ltb] at h1
  | cons a as ih =>
    intro l₂ h1 h2
    cases l₂ with
    | nil => simp [ltb] at h2
    | cons b bs =>
      simp only [ltb] at h1 h2
      by_cases hab : a < b
      · simp [hab] at h1
      · by_cases hba : b < a
        · simp [hab, hba] at h2
        · have habeq : a = b := le_antisymm (le_of_not_lt hba) (le_of_not_lt hab)
          subst habeq
          simp [lt_irrefl] at h1 h2
          rw [ih bs h1 h2]

theorem ltb_asymm : ∀ l₁ l₂ : List Char, ltb l₁ l₂ = true → ltb l₂ l₁ = false := by
  intro l₁ l₂ h
  cases hba : ltb l₂ l₁ with
  | false => rfl
  | true =>
    have : ltb l₁ l₁ = true := ltb_trans l₁ l₂ l₁ h hba
    rw [ltb_irrefl] at this
    exact absurd this (by simp)

theorem str_le_trans {a b c : String} (h1 : str_le a b) (h2 : str_le b c) : str_le a c := by
  unfold str_le at h1 h2 ⊢
  cases hca : ltb c.data a.data with
  | false => rfl
  | true =>
    cases hab : ltb a.data b.data with
    | true =>
      have := ltb_trans c.data a.data b.data hca hab
      rw [h2] at this
      exact absurd this (by simp)
    | false =>
      have habeq : a.data = b.data := ltb_eq_of_not a.data b.data hab h1
      rw [habeq] at hca
      rw [h2] at hca
      exact absurd hca (by simp)

theorem max_step_le_left (a x : String) : str_le a (max_step a x) := by
  unfold max_step str_le
  cases h : ltb x.data a.data <;> simp [h, ltb_irrefl]

theorem max_step_le_right (a x : String) : str_le x (max_step a x) := by
  unfold max_step str_le
  cases h : ltb x.data a.data <;> simp [h, ltb_irrefl]
  exact ltb_asymm x.data a.data h

theorem foldl_max_step_le :
    ∀ (xs : List String) (a : String), str_le a (List.foldl max_step a xs) := by
  intro xs
  induction xs with
  | nil => intro a; unfold str_le; exact ltb_irrefl a.data
  | cons x xs ih =>
    intro a
    exact str_le_trans (max_step_le_left a x) (ih (max_step a x))

theorem foldl_max_step_mem :
    ∀ (xs : List String) (a : String),
      List.foldl max_step a xs = a ∨ List.foldl max_step a xs ∈ xs := by
  intro xs
  induction xs with
  | nil => intro a; exact Or.inl rfl
  | cons x xs ih =>
    intro a
    have hstep : max_step a x = a ∨ max_step a x = x := by
      unfold max_step
      cases h : ltb x.data a.data <;> simp
    rw [List.foldl_cons]
    rcases ih (max_step a x) with h | h
    · rcases hstep with h2 | h2
      · exact Or.inl (by rw [h, h2])
      · refine Or.inr ?_
        rw [h, h2]
        exact List.mem_cons_self x xs
    · exact Or.inr (List.mem_cons_of_mem x h)

theorem foldl_max_step_ub :
    ∀ (xs : List String) (a y : String), y ∈ xs → str_le y (List.foldl max_step a xs) := by
  intro xs
  induction xs with
  | nil => intro a y hy; exact absurd hy (List.not_mem_nil y)
  | cons x xs ih =>
    intro a y hy
    rw [List.foldl_cons]
    rcases List.mem_cons.mp hy with h | h
    · subst h
      exact str_le_trans (max_step_le_right a y) (foldl_max_step_le xs (max_step a y))
    · exact ih (max_step a x) y h

/- ===== Claims about the input normalizer and version strings ===== -/

/-- Claim C1, counterexample: over the version set v1, v2, v10 the source's
latest_version computation returns "v2" (the lexicographic maximum), not the
numeric maximum "v10" that the claim states. -/
theorem latest_version_is_not_numeric_max :
    latest_version ["v1", "v2", "v10"] = "v2" ∧
    latest_version ["v1", "v2", "v10"] ≠ "v10" := by
  constructor
  · decide
  · decide

/-- Claim C1, amended: latest_version performs a lexicographic (byte-wise,
not numeric) maximum over the save-version identifiers: over the empty set it
returns the fall-back version "1"; over the set v1, v2, v10 it returns "v2";
in general the result is a member of a nonempty input list and every input
element is lexicographically at most the result. -/
theorem latest_version_lexicographic_max :
    latest_version [] = "1" ∧
    latest_version ["v1", "v2", "v10"] = "v2" ∧
    (∀ l : List String, l ≠ [] → latest_version l ∈ l) ∧
    (∀ (l : List String) (x : String), x ∈ l → str_le x (latest_version l)) := by
  refine ⟨rfl, by decide, ?_, ?_⟩
  · intro l hl
    match l with
    | x :: xs =>
      show (iter_max (x :: xs)).getD "1" ∈ x :: xs
      rcases foldl_max_step_mem xs x with h | h
      · rw [show iter_max (x :: xs) = some (List.foldl max_step x xs) from rfl,
            Option.getD_some, h]
        exact List.mem_cons_self x xs
      · rw [show iter_max (x :: xs) = some (List.foldl max_step x xs) from rfl,
            Option.getD_some]
        exact List.mem_cons_of_mem x h
  · intro l x hx
    match l with
    | y :: ys =>
      show str_le x ((iter_max (y :: ys)).getD "1")
      rw [show iter_max (y :: ys) = some (List.foldl max_step y ys) from rfl,
          Option.getD_some]
      rcases List.mem_cons.mp hx with h | h
      · subst h
        exact foldl_max_step_le ys x
      · exact foldl_max_step_ub ys y x h

/-- Claim C1 amended, witness at a concrete input: over the one-element list
v7 the maximum is a member of the list and an upper bound of it. -/
theorem latest_version_lexicographic_max_witness :
    latest_version ["v7"] ∈ ["v7"] ∧ str_le "v7" (latest_version ["v7"]) :=
  ⟨latest_version_lexicographic_max.2.2.1 ["v7"] (by decide),
   latest_version_lexicographic_max.2.2.2 ["v7"] "v7" (by decide)⟩

/-- Claim C6: the version parser takes the text after the last v (the last
piece of the split on v), parses it as an unsigned integer and defaults to 1
on parse failure, never failing the caller: "boardsv7" parses to 7,
"nonsense" parses to 1, and whenever the u32 parse of the last split piece
fails the result is the default 1. -/
theorem version_parse_suffix_default :
    parse_version_number "boardsv7" = 7 ∧
    parse_version_number "nonsense" = 1 ∧
    ∀ s : String,
      parseU32 ((splitOnChar 'v' s.data).getLast?.getD ['1']) = none →
      parse_version_number s = 1 := by
  refine ⟨by decide, by decide, ?_⟩
  intro s h
  unfold parse_version_number
  rw [h]
  rfl

/-- Claim C6, witness at a concrete input: the parse of "xvz" fails (the text
after the last v is not numeric) and the caller receives the default 1. -/
theorem version_parse_suffix_default_witness : parse_version_number "xvz" = 1 :=
  version_parse_suffix_default.2.2 "xvz" (by decide)

/-- Claim C7: a scroll-down raw event whose modifier state is the control
modifier normalizes to ScrollLeft and a scroll-up one to ScrollRight, at every
coordinate; a plain (no-modifier) scroll-up normalizes to ScrollUp and a plain
scroll-down to ScrollDown. -/
theorem scroll_modifier_remap :
    ∀ c r : Nat,
      Mouse.fromEvent ⟨MouseEventKind.ScrollDown, c, r, KeyModifiers.CONTROL⟩ =
        Mouse.ScrollLeft ∧
      Mouse.fromEvent ⟨MouseEventKind.ScrollUp, c, r, KeyModifiers.CONTROL⟩ =
        Mouse.ScrollRight ∧
      Mouse.fromEvent ⟨MouseEventKind.ScrollUp, c, r, KeyModifiers.NONE⟩ =
        Mouse.ScrollUp ∧
      Mouse.fromEvent ⟨MouseEventKind.ScrollDown, c, r, KeyModifiers.NONE⟩ =
        Mouse.ScrollDown :=
  fun _ _ => ⟨rfl, rfl, rfl, rfl⟩

/-- Claim C10: the control remap applies only when the modifier set is exactly
CONTROL: a scroll event whose modifiers combine control with shift or alt
normalizes to the plain ScrollDown or ScrollUp, not to ScrollLeft or
ScrollRight. -/
theorem ctrl_plus_extra_modifier_no_remap :
    ∀ (c r : Nat) (m : KeyModifiers),
      m.control = true → (m.shift = true ∨ m.alt = true) →
      Mouse.fromEvent ⟨MouseEventKind.ScrollDown, c, r, m⟩ = Mouse.ScrollDown ∧
      Mouse.fromEvent ⟨MouseEventKind.ScrollUp, c, r, m⟩ = Mouse.ScrollUp := by
  intro c r m hc hextra
  obtain ⟨s, ctl, a⟩ := m
  simp only at hc
  subst hc
  cases s with
  | true => exact ⟨rfl, rfl⟩
  | false =>
    cases a with
    | true => exact ⟨rfl, rfl⟩
    | false => simp at hextra

/-- Claim C10, witness at a concrete input: control plus shift scroll events
normalize to the plain scroll events. -/
theorem ctrl_plus_extra_modifier_no_remap_witness :
    Mouse.fromEvent ⟨MouseEventKind.ScrollDown, 0, 0, ⟨true, true, false⟩⟩ =
      Mouse.ScrollDown ∧
    Mouse.fromEvent ⟨MouseEventKind.ScrollUp, 0, 0, ⟨true, true, false⟩⟩ =
      Mouse.ScrollUp :=
  ctrl_plus_extra_modifier_no_remap 0 0 ⟨true, true, false⟩ rfl (Or.inl rfl)

/-- Claim C8, counterexample: the label of ScrollLeft is
"<Mouse::Ctrl + ScrollUp>", not the "<Mouse::ScrollLeft>" shape the claim
states (and similarly ScrollRight, whose label also names ScrollDown). -/
theorem scroll_left_label_not_variant_name :
    Mouse.display Mouse.ScrollLeft = "<Mouse::Ctrl + ScrollUp>" ∧
    Mouse.display Mouse.ScrollLeft ≠ "<Mouse::ScrollLeft>" ∧
    Mouse.display Mouse.ScrollRight ≠ "<Mouse::ScrollRight>" := by
  refine ⟨rfl, by decide, by decide⟩

/-- Claim C8, amended: every semantic mouse event has a canonical label, but
the labels of the press variants drop the Press suffix (Left, Right, Middle)
and the labels of ScrollLeft and ScrollRight are "<Mouse::Ctrl + ScrollUp>"
and "<Mouse::Ctrl + ScrollDown>"; only ScrollUp, ScrollDown, Unknown and
Move follow the variant-name shape. -/
theorem mouse_display_labels :
    Mouse.display Mouse.LeftPress = "<Mouse::Left>" ∧
    Mouse.display Mouse.RightPress = "<Mouse::Right>" ∧
    Mouse.display Mouse.MiddlePress = "<Mouse::Middle>" ∧
    Mouse.display Mouse.ScrollUp = "<Mouse::ScrollUp>" ∧
    Mouse.display Mouse.ScrollDown = "<Mouse::ScrollDown>" ∧
    Mouse.display Mouse.ScrollLeft = "<Mouse::Ctrl + ScrollUp>" ∧
    Mouse.display Mouse.ScrollRight = "<Mouse::Ctrl + ScrollDown>" ∧
    Mouse.display Mouse.Unknown = "<Mouse::Unknown>" ∧
    ∀ x y : Nat,
      Mouse.display (Mouse.Move x y) =
        "<Mouse::Move(" ++ toString x ++ ", " ++ toString y ++ ")>" :=
  ⟨rfl, rfl, rfl, rfl, rfl, rfl, rfl, rfl, fun _ _ => rfl⟩

/- ===== Data model (crate::app, modelled from the spec) ===== -/

/-- Modelled from the spec: the lifecycle flag of AppState, section 3 of the
spec (crate::app is not among the provided sources). -/
inductive Lifecycle
  | Created
  | Initializing
  | Initialized
  | Loading
  | Loaded
  deriving DecidableEq

/-- Modelled from the spec: a Card is an opaque unit of work-tracking content
owned by one Board (crate::app::kanban::Card is not among the provided
sources); its content is abstracted as one string. -/
structure Card where
  content : String
  deriving DecidableEq

/-- Modelled from the spec: a Board is a named ordered sequence of Cards
(crate::app::kanban::Board is not among the provided sources). -/
structure Board where
  name : String
  cards : List Card
  deriving DecidableEq

/-- Modelled from the spec: Board::default(), an empty board with no cards. -/
def Board.default : Board := ⟨"", []⟩

/-- Modelled from the spec: the mutable application state guarded by the
shared lock - the authoritative board sequence plus the lifecycle flag
(crate::app::App is not among the provided sources; only the fields the
handlers touch are modelled). -/
structure AppState where
  boards : List Board
  lifecycle : Lifecycle
  deriving DecidableEq

/-- Modelled from the spec: App::set_boards, an atomic replacement of the
board sequence. -/
def AppState.set_boards (s : AppState) (bs : List Board) : AppState :=
  { s with boards := bs }

/-- Modelled from the spec: App::initialized(), the lifecycle transition to
Initialized invoked at the end of the Initialize handler. -/
def AppState.initialized (s : AppState) : AppState :=
  { s with lifecycle := Lifecycle.Initialized }

/-- Modelled from the spec: App::loaded(), the mark-loaded lifecycle
transition invoked by the dispatcher after every handler. -/
def AppState.loaded (s : AppState) : AppState :=
  { s with lifecycle := Lifecycle.Loaded }

/-- Modelled from the spec: the config file payload; the core only
distinguishes the default payload from any other content. -/
inductive ConfigContent
  | defaultConfig
  | custom (s : String)
  deriving DecidableEq

/-- The five IoEvent commands, exactly the variants matched by
handle_io_event in handler.rs (the enum itself lives in src/io/mod.rs, which
is not among the provided sources, but the provided match fixes the set). -/
inductive IoEvent
  | Initialize
  | GetLocalData
  | GetCloudData
  | Reset
  | SaveLocalData
  deriving DecidableEq

/-- The filesystem-visible state the handlers read and write: the AppState
instance behind the lock, the config file (None when absent) and the
existence of the two directories. -/
structure World where
  app : AppState
  configFile : Option ConfigContent
  configDirExists : Bool
  saveDirExists : Bool
  deriving DecidableEq

/-- The outcomes the environment supplies for the fallible filesystem
operations of one run: success of the std::fs calls in handler.rs, and the
results of the data_handler operations (get_available_local_savefiles,
get_local_kanban_state, save_kanban_state_locally - modelled from the spec,
section 4.2, since data_handler.rs is not among the provided sources). -/
structure FsEnv where
  createConfigDirOk : Bool
  writeConfigOk : Bool
  createSaveDirOk : Bool
  localSaveFiles : List String
  loadResult : Nat → Except String (List Board)
  saveResult : List Board → Except String Unit

/-- One observable step of a handler execution: acquiring or releasing the
shared AppState lock, or touching the filesystem (the operation is named by a
string for readability). -/
inductive IoStep
  | lockAcquire
  | lockRelease
  | fs (op : String)
  deriving DecidableEq

/-- Decides whether some filesystem step of the trace happens while the lock
is held (the Nat argument counts currently held acquisitions). -/
def fsWhileLocked : List IoStep → Nat → Bool
  | [], _ => false
  | IoStep.lockAcquire :: rest, depth => fsWhileLocked rest (depth + 1)
  | IoStep.lockRelease :: rest, depth => fsWhileLocked rest (depth - 1)
  | IoStep.fs _ :: rest, depth => (decide (0 < depth)) || fsWhileLocked rest depth

/- ===== IO handlers (src/io/handler.rs) =====
   Each handler returns (Except panic (state, returned Result), trace):
   the outer Except models a Rust panic (all handlers of the source return
   Result Ok when they return at all), the inner Except is the handler's
   Result value, and the trace lists lock and filesystem steps in program
   order. -/

/-- Writing the default config file when absent: the second half of
prepare_config_dir (handler.rs lines 117-123).  serde_json serialization of
the default config cannot fail; std::fs::write is unwrapped, so its failure
is a panic. -/
def write_default_config (env : FsEnv) (w : World) :
    Except String (Bool × World) × List IoStep :=
  if w.configFile.isSome then (Except.ok (true, w), [])
  else if env.writeConfigOk then
    (Except.ok (true, { w with configFile := some ConfigContent.defaultConfig }),
     [IoStep.fs "write(config_file)"])
  else
    (Except.error "panicked: std::fs::write(config_file).unwrap()",
     [IoStep.fs "write(config_file)"])

/-- prepare_config_dir (handler.rs lines 111-125): create the config
directory when absent (create_dir_all is unwrapped, so its failure is a
panic), then write the default config file when absent; returns true. -/
def prepare_config_dir (env : FsEnv) (w : World) :
    Except String (Bool × World) × List IoStep :=
  if w.configDirExists then write_default_config env w
  else if env.createConfigDirOk then
    match write_default_config env { w with configDirExists := true } with
    | (r, t) => (r, IoStep.fs "create_dir_all(config_dir)" :: t)
  else
    (Except.error "panicked: std::fs::create_dir_all(config_dir).unwrap()",
     [IoStep.fs "create_dir_all(config_dir)"])

/-- prepare_save_dir (handler.rs lines 127-133): create the save directory
when absent (create_dir_all is unwrapped, so its failure is a panic);
returns true. -/
def prepare_save_dir (env : FsEnv) (w : World) :
    Except String (Bool × World) × List IoStep :=
  if w.saveDirExists then (Except.ok (true, w), [])
  else if env.createSaveDirOk then
    (Except.ok (true, { w with saveDirExists := true }),
     [IoStep.fs "create_dir_all(save_dir)"])
  else
    (Except.error "panicked: std::fs::create_dir_all(save_dir).unwrap()",
     [IoStep.fs "create_dir_all(save_dir)"])

/-- prepare_boards (handler.rs lines 135-157): list the local save files,
pick the latest version, parse its number, load that snapshot, and fall back
to one default Board when the load fails.  Never panics and never fails. -/
def prepare_boards (env : FsEnv) : List Board × List IoStep :=
  let local_save_files := env.localSaveFiles
  let vnum := latest_version_number local_save_files
  let boards := match env.loadResult vnum with
    | Except.ok data => data
    | Except.error _ => [Board.default]
  (boards, [IoStep.fs "read_dir(save_dir)", IoStep.fs "read(save_file)"])

/-- do_initialize (handler.rs lines 46-60): acquire the AppState lock, then
prepare the config directory, the save directory and the boards, install the
boards, mark the state initialized and release the lock; returns Ok.  The
two boolean results are only checked for error logging. -/
def do_initialize (env : FsEnv) (w : World) :
    Except String (World × Except String Unit) × List IoStep :=
  match prepare_config_dir env w with
  | (Except.error e, t1) => (Except.error e, IoStep.lockAcquire :: t1)
  | (Except.ok (_ok1, w1), t1) =>
    match prepare_save_dir env w1 with
    | (Except.error e, t2) => (Except.error e, IoStep.lockAcquire :: (t1 ++ t2))
    | (Except.ok (_ok2, w2), t2) =>
      let pb := prepare_boards env
      let w3 := { w2 with app := { w2.app with boards := pb.1 } }
      let w4 := { w3 with app := AppState.initialized w3.app }
      (Except.ok (w4, Except.ok ()),
       IoStep.lockAcquire :: (t1 ++ t2 ++ pb.2 ++ [IoStep.lockRelease]))

/-- get_local_save (handler.rs lines 62-68): acquire the lock and install an
empty board sequence; returns Ok. -/
def get_local_save (w : World) :
    Except String (World × Except String Unit) × List IoStep :=
  (Except.ok ({ w with app := AppState.set_boards w.app [] }, Except.ok ()),
   [IoStep.lockAcquire, IoStep.lockRelease])

/-- get_cloud_save (handler.rs lines 70-76): identical placeholder, installs
an empty board sequence; returns Ok. -/
def get_cloud_save (w : World) :
    Except String (World × Except String Unit) × List IoStep :=
  (Except.ok ({ w with app := AppState.set_boards w.app [] }, Except.ok ()),
   [IoStep.lockAcquire, IoStep.lockRelease])

/-- reset_config (handler.rs lines 78-83): calls data_handler::reset_config,
which per the spec (section 4.4, Reset) restores the config file to its
default content and touches nothing else; the AppState lock is never taken;
returns Ok. -/
def reset_config (w : World) :
    Except String (World × Except String Unit) × List IoStep :=
  (Except.ok ({ w with configFile := some ConfigContent.defaultConfig },
              Except.ok ()),
   [IoStep.fs "write(config_file)"])

/-- save_local_data (handler.rs lines 85-95): acquire the lock, read the
board sequence and hand it to save_kanban_state_locally (modelled from the
spec, section 4.2, save_snapshot: a filesystem write that may fail); the
status is only matched for logging, so the handler returns Ok either way and
the state is unchanged. -/
def save_local_data (env : FsEnv) (w : World) :
    Except String (World × Except String Unit) × List IoStep :=
  let board_data := w.app.boards
  let _status := env.saveResult board_data
  (Except.ok (w, Except.ok ()),
   [IoStep.lockAcquire, IoStep.fs "write(save_file)", IoStep.lockRelease])

/-- The command dispatch of handle_io_event (handler.rs lines 29-35): the
match that picks a handler for each of the five commands. -/
def runHandler (env : FsEnv) (ev : IoEvent) (w : World) :
    Except String (World × Except String Unit) × List IoStep :=
  match ev with
  | IoEvent.Initialize => do_initialize env w
  | IoEvent.GetLocalData => get_local_save w
  | IoEvent.GetCloudData => get_cloud_save w
  | IoEvent.Reset => reset_config w
  | IoEvent.SaveLocalData => save_local_data env w

/-- handle_io_event (handler.rs lines 28-43): run the matched handler, log
its result (an Err is only logged), then acquire the lock and mark the state
loaded.  A panic inside a handler propagates and the final lock-and-loaded
step never runs. -/
def handle_io_event (env : FsEnv) (ev : IoEvent) (w : World) :
    Except String World × List IoStep :=
  match runHandler env ev w with
  | (Except.error e, t) => (Except.error e, t)
  | (Except.ok (w1, _result), t) =>
    (Except.ok { w1 with app := AppState.loaded w1.app },
     t ++ [IoStep.lockAcquire, IoStep.lockRelease])

/-- The IO worker loop of main.rs (lines 60-65): receive commands in order
and run handle_io_event on each; the loop ends only when the channel closes
(here: when the command list is exhausted) or a handler panics. -/
def dispatcher_loop (env : FsEnv) (evs : List IoEvent) (w : World) :
    Except String World × List IoStep :=
  match evs with
  | [] => (Except.ok w, [])
  | ev :: rest =>
    match handle_io_event env ev w with
    | (Except.error e, t) => (Except.error e, t)
    | (Except.ok w1, t) =>
      match dispatcher_loop env rest w1 with
      | (r, t2) => (r, t ++ t2)

/- ===== Concrete example runs used by witnesses and counterexamples ===== -/

/-- A benign environment: every filesystem operation succeeds, there are no
save files, loading yields an empty snapshot and saving succeeds. -/
def envEx : FsEnv :=
  ⟨true, true, true, [], fun _ => Except.ok [], fun _ => Except.ok ()⟩

/-- A fully prepared world: both directories and the config file exist. -/
def wEx : World :=
  ⟨⟨[], Lifecycle.Created⟩, some ConfigContent.defaultConfig, true, true⟩

/-- An environment in which creating the config directory fails. -/
def envNoCfgDir : FsEnv :=
  ⟨false, true, true, [], fun _ => Except.ok [], fun _ => Except.ok ()⟩

/-- A fresh world: nothing exists yet. -/
def wFresh : World := ⟨⟨[], Lifecycle.Created⟩, none, false, false⟩

/-- An environment in which writing the default config file fails. -/
def envNoWrite : FsEnv :=
  ⟨true, false, true, [], fun _ => Except.ok [], fun _ => Except.ok ()⟩

/-- A world whose config directory exists but whose config file is absent. -/
def wNoCfgFile : World := ⟨⟨[], Lifecycle.Created⟩, none, true, true⟩

/-- An environment in which creating the save directory fails. -/
def envNoSaveDir : FsEnv :=
  ⟨true, true, false, [], fun _ => Except.ok [], fun _ => Except.ok ()⟩

/-- A world whose config side is prepared but whose save directory is absent. -/
def wNoSaveDir : World :=
  ⟨⟨[], Lifecycle.Created⟩, some ConfigContent.defaultConfig, true, false⟩

/-- An environment in which loading any snapshot fails. -/
def envLoadFail : FsEnv :=
  ⟨true, true, true, [], fun _ => Except.error "no save file", fun _ => Except.ok ()⟩

/-- The world reached by a completed Initialize whose snapshot load failed. -/
def wInitDone : World :=
  ⟨⟨[Board.default], Lifecycle.Initialized⟩, some ConfigContent.defaultConfig, true, true⟩

/-- A world holding one nonempty board and an edited config file. -/
def wBusy : World :=
  ⟨⟨[⟨"todo", [⟨"task one"⟩]⟩], Lifecycle.Loaded⟩,
   some (ConfigContent.custom "edited"), true, true⟩

/-- wBusy after a handled Reset: same boards, default config, marked loaded. -/
def wBusyAfter : World :=
  ⟨⟨[⟨"todo", [⟨"task one"⟩]⟩], Lifecycle.Loaded⟩,
   some ConfigContent.defaultConfig, true, true⟩

/- ===== Claims about the IO handlers ===== -/

/-- Claim C2, counterexample: in this Initialize execution (and in this
SaveLocalData execution) filesystem operations happen while the exclusive
AppState lock is held, so the lock is not released before filesystem work. -/
theorem initialize_holds_lock_across_fs_instance :
    fsWhileLocked ( do_initialize envEx wEx).2 0 = true ∧
    fsWhileLocked (save_local_data envEx wEx).2 0 = true :=
  ⟨rfl, rfl⟩

/-- Claim C2, amended: the opposite discipline holds - every execution of the
Initialize handler and of the SaveLocalData handler performs at least one
filesystem operation while holding the exclusive AppState lock, because both
handlers acquire the lock first and only then touch the filesystem. -/
theorem handlers_hold_lock_across_fs :
    ∀ (env : FsEnv) (w : World),
      fsWhileLocked ( do_initialize env w).2 0 = true ∧
      fsWhileLocked (save_local_data env w).2 0 = true := by
  intro env w
  refine ⟨?_, rfl⟩
  obtain ⟨app, cfile, cdir, sdir⟩ := w
  cases cdir <;> cases sdir <;> cases cfile <;>
    cases hc : env.createConfigDirOk <;> cases hw : env.writeConfigOk <;>
      cases hs : env.createSaveDirOk <;>
        simp [ do_initialize, prepare_config_dir, write_default_config,
               prepare_save_dir, prepare_boards, fsWhileLocked, hc, hw, hs]

/-- Claim C3 (a code bug): when creating the config directory, writing the
default config file or creating the save directory fails, the Initialize
handler does not log and continue - the unwrap calls inside
prepare_config_dir and prepare_save_dir turn the filesystem error into a
panic that aborts the handler (the log-and-continue branches of
do_initialize are unreachable). -/
theorem prepare_dirs_panic_on_fs_failure :
    ( do_initialize envNoCfgDir wFresh).1 =
      Except.error "panicked: std::fs::create_dir_all(config_dir).unwrap()" ∧
    ( do_initialize envNoWrite wNoCfgFile).1 =
      Except.error "panicked: std::fs::write(config_file).unwrap()" ∧
    ( do_initialize envNoSaveDir wNoSaveDir).1 =
      Except.error "panicked: std::fs::create_dir_all(save_dir).unwrap()" :=
  ⟨rfl, rfl, rfl⟩

/-- Whenever do_initialize returns (rather than panics), the installed board
sequence is the one computed by prepare_boards and the lifecycle flag is
Initialized. -/
theorem do_initialize_ok_shape :
    ∀ (env : FsEnv) (w w' : World) (r : Except String Unit) (t : List IoStep),
      do_initialize env w = (Except.ok (w', r), t) →
      w'.app.boards = (prepare_boards env).1 ∧
      w'.app.lifecycle = Lifecycle.Initialized := by
  intro env w w' r t h
  unfold do_initialize at h
  split at h
  · simp at h
  · split at h
    · simp at h
    · simp only [Prod.mk.injEq, Except.ok.injEq] at h
      obtain ⟨⟨hw', -⟩, -⟩ := h
      rw [← hw']
      simp [AppState.initialized]

/-- Claim C4: in every execution of the Initialize handler that completes
with the snapshot load having failed, the resulting board sequence is exactly
one default empty Board and the lifecycle flag is Initialized. -/
theorem initialize_load_failure_fallback :
    ∀ (env : FsEnv) (w w' : World) (r : Except String Unit) (t : List IoStep)
      (e : String),
      env.loadResult (latest_version_number env.localSaveFiles) = Except.error e →
      do_initialize env w = (Except.ok (w', r), t) →
      w'.app.boards = [Board.default] ∧
      w'.app.lifecycle = Lifecycle.Initialized := by
  intro env w w' r t e hload h
  obtain ⟨hb, hl⟩ := do_initialize_ok_shape env w w' r t h
  refine ⟨?_, hl⟩
  rw [hb]
  simp [prepare_boards, hload]

/-- Claim C4, witness at a concrete run: with every load failing, Initialize
completes and the final state holds one default Board, lifecycle
Initialized. -/
theorem initialize_load_failure_fallback_witness :
    wInitDone.app.boards = [Board.default] ∧
    wInitDone.app.lifecycle = Lifecycle.Initialized :=
  initialize_load_failure_fallback envLoadFail wEx wInitDone (Except.ok ())
    [IoStep.lockAcquire, IoStep.fs "read_dir(save_dir)", IoStep.fs "read(save_file)",
     IoStep.lockRelease] "no save file" rfl rfl

/-- Claim C5: for every command of the five-command set, whenever its handler
returns (with Ok or with Err alike - the returned Result r is arbitrary), the
dispatcher marks the state loaded, and the dispatcher loop proceeds to the
remaining commands instead of terminating. -/
theorem dispatcher_always_marks_loaded :
    ∀ (env : FsEnv) (ev : IoEvent) (w w' : World) (r : Except String Unit)
      (t : List IoStep),
      runHandler env ev w = (Except.ok (w', r), t) →
      handle_io_event env ev w =
        (Except.ok { w' with app := AppState.loaded w'.app },
         t ++ [IoStep.lockAcquire, IoStep.lockRelease]) ∧
      ∀ rest : List IoEvent,
        (dispatcher_loop env (ev :: rest) w).1 =
          (dispatcher_loop env rest { w' with app := AppState.loaded w'.app }).1 := by
  intro env ev w w' r t h
  have hh : handle_io_event env ev w =
      (Except.ok { w' with app := AppState.loaded w'.app },
       t ++ [IoStep.lockAcquire, IoStep.lockRelease]) := by
    unfold handle_io_event
    rw [h]
  refine ⟨hh, ?_⟩
  intro rest
  rw [show dispatcher_loop env (ev :: rest) w =
        (match handle_io_event env ev w with
         | (Except.error e, t) => (Except.error e, t)
         | (Except.ok w1, t) =>
           match dispatcher_loop env rest w1 with
           | (r2, t2) => (r2, t ++ t2)) from rfl]
  rw [hh]

/-- Claim C5, witness at a concrete run: after GetLocalData returns Ok, the
state is marked loaded. -/
theorem dispatcher_always_marks_loaded_witness :
    handle_io_event envEx IoEvent.GetLocalData wEx =
      (Except.ok ⟨⟨[], Lifecycle.Loaded⟩, some ConfigContent.defaultConfig, true, true⟩,
       [IoStep.lockAcquire, IoStep.lockRelease, IoStep.lockAcquire, IoStep.lockRelease]) :=
  (dispatcher_always_marks_loaded envEx IoEvent.GetLocalData wEx
    ⟨⟨[], Lifecycle.Created⟩, some ConfigContent.defaultConfig, true, true⟩
    (Except.ok ()) [IoStep.lockAcquire, IoStep.lockRelease] rfl).1

/-- Claim C9: handling the Reset command never alters the board sequence -
for every prior world the boards after the handler completes are equal to the
boards before - and the config file is restored to its default content. -/
theorem reset_preserves_boards :
    ∀ (env : FsEnv) (w w' : World) (t : List IoStep),
      handle_io_event env IoEvent.Reset w = (Except.ok w', t) →
      w'.app.boards = w.app.boards ∧
      w'.configFile = some ConfigContent.defaultConfig := by
  intro env w w' t h
  have hrun : handle_io_event env IoEvent.Reset w =
      (Except.ok { w with configFile := some ConfigContent.defaultConfig,
                          app := AppState.loaded w.app },
       [IoStep.fs "write(config_file)", IoStep.lockAcquire, IoStep.lockRelease]) := rfl
  rw [hrun] at h
  simp only [Prod.mk.injEq, Except.ok.injEq] at h
  obtain ⟨hw', -⟩ := h
  rw [← hw']
  simp [AppState.loaded]

/-- Claim C9, witness at a concrete run: a Reset on a world with one nonempty
board and an edited config leaves the boards unchanged and restores the
default config. -/
theorem reset_preserves_boards_witness :
    wBusyAfter.app.boards = wBusy.app.boards ∧
    wBusyAfter.configFile = some ConfigContent.defaultConfig :=
  reset_preserves_boards envEx wBusy wBusyAfter
    [IoStep.fs "write(config_file)", IoStep.lockAcquire, IoStep.lockRelease] rfl
